import Mathlib

/-!
Verification of `scripts/import_agent.py`.

The script loads a JSON agent definition, resolves the agent name from an
optional CLI override or the document itself, overwrites the model, joins a
list-valued `instructions` field with newlines, strips the `memory` key, and
submits the result to a remote create-agent API.

The JSON document is embedded as an insertion-ordered association list of
string keys to JSON values, matching the semantics of a Python `dict` loaded
by `json.load` (unique keys, insertion order preserved, `d[k] = v` updates in
place or appends, `d.pop(k, None)` removes the entry if present).  JSON
numbers are modelled as integers; no claim depends on non-integer numerics.
The remote call itself is external: the run model records which I/O events
(file read, remote submission) occur and with which body.
-/

/-- A JSON value as produced by `json.load`. -/
inductive JValue where
  | null : JValue
  | bool : Bool → JValue
  | num : Int → JValue
  | str : String → JValue
  | arr : List JValue → JValue
  | obj : List (String × JValue) → JValue

/-- A Python dict with string keys: an insertion-ordered association list. -/
abbrev JObj := List (String × JValue)

/-- Python `d.get(k)`: the value stored at key `k`, or `none`. -/
def dictGet (d : JObj) (k : String) : Option JValue :=
  match d with
  | [] => none
  | (k2, v) :: rest => if k2 = k then some v else dictGet rest k

/-- Python `d[k] = v`: replace the value at an existing key in place,
otherwise append a new entry at the end. -/
def dictSet (d : JObj) (k : String) (v : JValue) : JObj :=
  match d with
  | [] => [(k, v)]
  | (k2, v2) :: rest => if k2 = k then (k, v) :: rest else (k2, v2) :: dictSet rest k v

/-- Python `d.pop(k, None)`: remove the entry with key `k` if present
(a dict holds at most one entry per key). -/
def dictPop (d : JObj) (k : String) : JObj :=
  match d with
  | [] => []
  | (k2, v) :: rest => if k2 = k then dictPop rest k else (k2, v) :: dictPop rest k

/-- Python truthiness `bool(v)` of a JSON value. -/
def jtruthy : JValue → Bool
  | JValue.null => false
  | JValue.bool b => b
  | JValue.num n => decide (n ≠ 0)
  | JValue.str s => decide (s ≠ "")
  | JValue.arr l => !l.isEmpty
  | JValue.obj l => !l.isEmpty

/-- Truthiness of the optional `--agent-name` argument: absent (`None`) and
the empty string are falsy. -/
def overrideTruthy : Option String → Bool
  | none => false
  | some s => decide (s ≠ "")

/-- Truthiness of a `d.get(k)` result: `None` is falsy. -/
def jtruthyOpt : Option JValue → Bool
  | none => false
  | some v => jtruthy v

/-- `target_name = agent_name or definition.get("name")`: the override when it
is a non-empty string, otherwise the value of the document's `name` field. -/
def resolveName (agentName : Option String) (doc : JObj) : Option JValue :=
  match agentName with
  | some s => if s = "" then dictGet doc "name" else some (JValue.str s)
  | none => dictGet doc "name"

/-- `"\n".join(xs)` requires every list element to be a string; this extracts
the strings in order, failing (as `join` does with a `TypeError`) otherwise. -/
def asStrList : List JValue → Option (List String)
  | [] => some []
  | JValue.str s :: rest => (asStrList rest).map (fun t => s :: t)
  | _ :: _ => none

/-- An error raised inside `import_agent`: the explicit `ValueError` for a
missing agent name, or the `TypeError` raised by `"\n".join` on a list
containing a non-string. -/
inductive ImportError where
  | valueError : String → ImportError
  | typeError : String → ImportError

/-- The message of the `ValueError` raised when no agent name is available. -/
def nameMissingMsg : String :=
  "Agent name missing. Supply --agent-name or ensure JSON includes a \x27name\x27 field."

/-- The body normalization performed by `import_agent` on the loaded document:
resolve the effective name (raising `ValueError` when it is falsy), set
`name` and `model`, join a list-valued `instructions` with newlines, and pop
`memory`.  Returns the body submitted to `create_agent`. -/
def importAgent (agentName : Option String) (model : String) (doc : JObj) :
    Except ImportError JObj :=
  match resolveName agentName doc with
  | none => Except.error (ImportError.valueError nameMissingMsg)
  | some target =>
    if jtruthy target then
      let d2 := dictSet (dictSet doc "name" target) "model" (JValue.str model)
      match dictGet d2 "instructions" with
      | some (JValue.arr items) =>
        match asStrList items with
        | some parts =>
          Except.ok (dictPop
            (dictSet d2 "instructions" (JValue.str (String.intercalate "\n" parts))) "memory")
        | none => Except.error (ImportError.typeError "sequence item: expected str instance")
      | _ => Except.ok (dictPop d2 "memory")
    else
      Except.error (ImportError.valueError nameMissingMsg)

/-- A failure surfaced by `main`: the `FileNotFoundError` raised before any
I/O when the definition path does not exist, or an error propagated from
`import_agent`. -/
inductive RunError where
  | fileNotFound : String → RunError
  | importError : ImportError → RunError

/-- An observable I/O action of one run: opening and reading the definition
file, or submitting a body to the remote create-agent operation. -/
inductive Event where
  | readFile : String → Event
  | remoteCall : JObj → Event

/-- `main` up to the remote call, over an abstract filesystem mapping a path
to the parsed document of an existing file: check existence (raising
`FileNotFoundError: "Definition file not found: <path>"` when absent), read
and normalize the document, submit the body.  Returns the outcome (the
submitted body on success) together with the I/O events in order. -/
def runMain (fs : String → Option JObj) (definitionPath : String)
    (agentName : Option String) (model : String) :
    Except RunError JObj × List Event :=
  match fs definitionPath with
  | none => (Except.error (RunError.fileNotFound definitionPath), [])
  | some doc =>
    match importAgent agentName model doc with
    | Except.error e => (Except.error (RunError.importError e), [Event.readFile definitionPath])
    | Except.ok body =>
      (Except.ok body, [Event.readFile definitionPath, Event.remoteCall body])

mutual
/-- Python `repr(v)` of a JSON value; escape sequences inside nested string
literals are not modelled (no claim depends on them). -/
def pyRepr : JValue → String
  | JValue.null => "None"
  | JValue.bool b => if b then "True" else "False"
  | JValue.num n => toString n
  | JValue.str s => "\x27" ++ s ++ "\x27"
  | JValue.arr l => "[" ++ pyReprSeq l ++ "]"
  | JValue.obj l => "\x7b" ++ pyReprPairs l ++ "\x7d"

/-- Comma-separated `repr`s of list elements. -/
def pyReprSeq : List JValue → String
  | [] => ""
  | [v] => pyRepr v
  | v :: rest => pyRepr v ++ ", " ++ pyReprSeq rest

/-- Comma-separated `key: repr(value)` renderings of dict entries. -/
def pyReprPairs : List (String × JValue) → String
  | [] => ""
  | [(k, v)] => "\x27" ++ k ++ "\x27: " ++ pyRepr v
  | (k, v) :: rest => "\x27" ++ k ++ "\x27: " ++ pyRepr v ++ ", " ++ pyReprPairs rest
end

/-- Python `str(v)` as used by an f-string interpolation. -/
def pyStr (v : JValue) : String :=
  match v with
  | JValue.str s => s
  | _ => pyRepr v

/-- F-string rendering of a `result.get(k)` value: `None` when absent. -/
def pyStrOpt : Option JValue → String
  | none => "None"
  | some v => pyStr v

/-- The four lines printed by `main` on success, from the response mapping. -/
def formatSummary (result : JObj) : List String :=
  ["✅ Agent imported:",
   "  Name:        " ++ pyStrOpt (dictGet result "name"),
   "  Version ID:  " ++ pyStrOpt (dictGet result "id"),
   "  Status:      " ++ pyStrOpt (dictGet result "status")]

/-- Tests whether an `import_agent` outcome is the name-validation error. -/
def isValueError : Except ImportError JObj → Bool
  | Except.error (ImportError.valueError _) => true
  | _ => false

/-- The end-to-end example input document
`{"name": "diag", "instructions": ["step1", "step2"], "memory": {"x": 1}}`. -/
def diagDoc : JObj :=
  [("name", JValue.str "diag"),
   ("instructions", JValue.arr [JValue.str "step1", JValue.str "step2"]),
   ("memory", JValue.obj [("x", JValue.num 1)])]

/-- The body the example document is expected to produce:
`{"name": "diag", "instructions": "step1\nstep2", "model": "gpt-4o-mini"}`. -/
def diagBody : JObj :=
  [("name", JValue.str "diag"),
   ("instructions", JValue.str "step1\nstep2"),
   ("model", JValue.str "gpt-4o-mini")]

/-- The body produced from the example document under the override
`--agent-name override`. -/
def overrideBody : JObj :=
  [("name", JValue.str "override"),
   ("instructions", JValue.str "step1\nstep2"),
   ("model", JValue.str "gpt-4o-mini")]

/-- A document whose `instructions` value is already the scalar string
`"a\nb"`. -/
def abDoc : JObj :=
  [("name", JValue.str "x"), ("instructions", JValue.str "a\nb")]

/-- The body produced from `abDoc` with model `"m1"`. -/
def abBody : JObj :=
  [("name", JValue.str "x"), ("instructions", JValue.str "a\nb"),
   ("model", JValue.str "m1")]

/-- A document with no `name` field. -/
def noNameDoc : JObj := [("instructions", JValue.str "hi")]

/-- A document whose `name` field is the empty string. -/
def emptyNameDoc : JObj := [("name", JValue.str "")]

/-- A document carrying an arbitrary passthrough key (`temperature`). -/
def extraDoc : JObj :=
  [("name", JValue.str "n"), ("temperature", JValue.num 1), ("memory", JValue.null)]

/-- The body produced from `extraDoc` with model `"m1"`. -/
def extraBody : JObj :=
  [("name", JValue.str "n"), ("temperature", JValue.num 1), ("model", JValue.str "m1")]

/-! Lemmas about the dict operations. -/

theorem dictGet_dictSet_self (d : JObj) (k : String) (v : JValue) :
    dictGet (dictSet d k v) k = some v := by
  induction d with
  | nil => simp [dictGet, dictSet]
  | cons p rest ih =>
    obtain ⟨k2, v2⟩ := p
    by_cases h : k2 = k
    · simp [dictGet, dictSet, h]
    · simp [dictGet, dictSet, h, ih]

theorem dictGet_dictSet_ne (d : JObj) (k k2 : String) (v : JValue) (hne : k ≠ k2) :
    dictGet (dictSet d k v) k2 = dictGet d k2 := by
  induction d with
  | nil => simp [dictGet, dictSet, hne]
  | cons p rest ih =>
    obtain ⟨k3, v3⟩ := p
    by_cases h : k3 = k
    · subst h
      simp [dictGet, dictSet, hne]
    · simp [dictGet, dictSet, h, ih]

theorem dictGet_dictPop_self (d : JObj) (k : String) :
    dictGet (dictPop d k) k = none := by
  induction d with
  | nil => simp [dictGet, dictPop]
  | cons p rest ih =>
    obtain ⟨k2, v2⟩ := p
    by_cases h : k2 = k
    · simp [dictPop, h, ih]
    · simp [dictGet, dictPop, h, ih]

theorem dictGet_dictPop_ne (d : JObj) (k k2 : String) (hne : k ≠ k2) :
    dictGet (dictPop d k) k2 = dictGet d k2 := by
  induction d with
  | nil => simp [dictPop]
  | cons p rest ih =>
    obtain ⟨k3, v3⟩ := p
    by_cases h : k3 = k
    · subst h
      simp [dictGet, dictPop, hne, ih]
    · simp [dictGet, dictPop, h, ih]

theorem dictPop_absent (d : JObj) (k : String) (h : dictGet d k = none) :
    dictPop d k = d := by
  induction d with
  | nil => simp [dictPop]
  | cons p rest ih =>
    obtain ⟨k2, v2⟩ := p
    by_cases hk : k2 = k
    · simp [dictGet, hk] at h
    · simp [dictGet, hk] at h
      simp [dictPop, hk, ih h]

theorem importAgent_ok_inv (a : Option String) (m : String) (doc d2 : JObj)
    (h : importAgent a m doc = Except.ok d2) :
    ∃ target, resolveName a doc = some target ∧ jtruthy target = true ∧
      ((∃ items parts,
          dictGet (dictSet (dictSet doc "name" target) "model" (JValue.str m)) "instructions"
            = some (JValue.arr items) ∧
          asStrList items = some parts ∧
          d2 = dictPop (dictSet (dictSet (dictSet doc "name" target) "model" (JValue.str m))
                 "instructions" (JValue.str (String.intercalate "\n" parts))) "memory") ∨
       ((∀ items,
          dictGet (dictSet (dictSet doc "name" target) "model" (JValue.str m)) "instructions"
            ≠ some (JValue.arr items)) ∧
        d2 = dictPop (dictSet (dictSet doc "name" target) "model" (JValue.str m)) "memory")) := by
  unfold importAgent at h
  cases hres : resolveName a doc with
  | none => rw [hres] at h; exact absurd h (by simp)
  | some target =>
    rw [hres] at h
    dsimp only at h
    refine ⟨target, rfl, ?_⟩
    cases ht : jtruthy target with
    | false => rw [ht] at h; simp at h
    | true =>
      rw [ht] at h
      rw [if_pos rfl] at h
      refine ⟨rfl, ?_⟩
      cases hins : dictGet (dictSet (dictSet doc "name" target) "model" (JValue.str m))
          "instructions" with
      | none =>
        rw [hins] at h
        simp at h
        exact Or.inr ⟨by simp, h.symm⟩
      | some v =>
        rw [hins] at h
        cases v with
        | arr items =>
          dsimp only at h
          cases hstr : asStrList items with
          | none => rw [hstr] at h; simp at h
          | some parts =>
            rw [hstr] at h
            simp at h
            exact Or.inl ⟨items, parts, rfl, hstr, h.symm⟩
        | null => simp at h; exact Or.inr ⟨by simp, h.symm⟩
        | bool b => simp at h; exact Or.inr ⟨by simp, h.symm⟩
        | num n => simp at h; exact Or.inr ⟨by simp, h.symm⟩
        | str s => simp at h; exact Or.inr ⟨by simp, h.symm⟩
        | obj l => simp at h; exact Or.inr ⟨by simp, h.symm⟩

theorem dictSet_same (d : JObj) (k : String) (v : JValue) (h : dictGet d k = some v) :
    dictSet d k v = d := by
  induction d with
  | nil => simp [dictGet] at h
  | cons p rest ih =>
    obtain ⟨k2, v2⟩ := p
    by_cases hk : k2 = k
    · simp [dictGet, hk] at h
      simp [dictSet, hk, h]
    · simp [dictGet, hk] at h
      simp [dictSet, hk, ih h]

/-! Derived facts about a successful `import_agent` run. -/

theorem importAgent_ok_get_other (a : Option String) (m : String) (doc d2 : JObj) (k : String)
    (h : importAgent a m doc = Except.ok d2)
    (h1 : k ≠ "name") (h2 : k ≠ "model") (h3 : k ≠ "instructions") (h4 : k ≠ "memory") :
    dictGet d2 k = dictGet doc k := by
  obtain ⟨target, hres, ht, hcase⟩ := importAgent_ok_inv a m doc d2 h
  rcases hcase with ⟨items, parts, hins, hstr, rfl⟩ | ⟨hni, rfl⟩
  · rw [dictGet_dictPop_ne _ _ _ (Ne.symm h4),
      dictGet_dictSet_ne _ _ _ _ (Ne.symm h3),
      dictGet_dictSet_ne _ _ _ _ (Ne.symm h2),
      dictGet_dictSet_ne _ _ _ _ (Ne.symm h1)]
  · rw [dictGet_dictPop_ne _ _ _ (Ne.symm h4),
      dictGet_dictSet_ne _ _ _ _ (Ne.symm h2),
      dictGet_dictSet_ne _ _ _ _ (Ne.symm h1)]

theorem importAgent_ok_name (a : Option String) (m : String) (doc d2 : JObj)
    (h : importAgent a m doc = Except.ok d2) :
    ∃ target, resolveName a doc = some target ∧ jtruthy target = true ∧
      dictGet d2 "name" = some target := by
  obtain ⟨target, hres, ht, hcase⟩ := importAgent_ok_inv a m doc d2 h
  refine ⟨target, hres, ht, ?_⟩
  rcases hcase with ⟨items, parts, hins, hstr, rfl⟩ | ⟨hni, rfl⟩
  · rw [dictGet_dictPop_ne _ _ _ (by decide), dictGet_dictSet_ne _ _ _ _ (by decide),
      dictGet_dictSet_ne _ _ _ _ (by decide), dictGet_dictSet_self]
  · rw [dictGet_dictPop_ne _ _ _ (by decide), dictGet_dictSet_ne _ _ _ _ (by decide),
      dictGet_dictSet_self]

theorem importAgent_ok_model (a : Option String) (m : String) (doc d2 : JObj)
    (h : importAgent a m doc = Except.ok d2) :
    dictGet d2 "model" = some (JValue.str m) := by
  obtain ⟨target, hres, ht, hcase⟩ := importAgent_ok_inv a m doc d2 h
  rcases hcase with ⟨items, parts, hins, hstr, rfl⟩ | ⟨hni, rfl⟩
  · rw [dictGet_dictPop_ne _ _ _ (by decide), dictGet_dictSet_ne _ _ _ _ (by decide),
      dictGet_dictSet_self]
  · rw [dictGet_dictPop_ne _ _ _ (by decide), dictGet_dictSet_self]

theorem importAgent_ok_memory (a : Option String) (m : String) (doc d2 : JObj)
    (h : importAgent a m doc = Except.ok d2) :
    dictGet d2 "memory" = none := by
  obtain ⟨target, hres, ht, hcase⟩ := importAgent_ok_inv a m doc d2 h
  rcases hcase with ⟨items, parts, hins, hstr, rfl⟩ | ⟨hni, rfl⟩
  · exact dictGet_dictPop_self _ _
  · exact dictGet_dictPop_self _ _

theorem importAgent_ok_instructions (a : Option String) (m : String) (doc d2 : JObj)
    (h : importAgent a m doc = Except.ok d2) :
    (∃ items parts, dictGet doc "instructions" = some (JValue.arr items) ∧
        asStrList items = some parts ∧
        dictGet d2 "instructions" = some (JValue.str (String.intercalate "\n" parts))) ∨
    ((∀ items, dictGet doc "instructions" ≠ some (JValue.arr items)) ∧
      dictGet d2 "instructions" = dictGet doc "instructions") := by
  obtain ⟨target, hres, ht, hcase⟩ := importAgent_ok_inv a m doc d2 h
  have hmid : dictGet (dictSet (dictSet doc "name" target) "model" (JValue.str m)) "instructions"
      = dictGet doc "instructions" := by
    rw [dictGet_dictSet_ne _ _ _ _ (by decide), dictGet_dictSet_ne _ _ _ _ (by decide)]
  rcases hcase with ⟨items, parts, hins, hstr, rfl⟩ | ⟨hni, rfl⟩
  · rw [hmid] at hins
    refine Or.inl ⟨items, parts, hins, hstr, ?_⟩
    rw [dictGet_dictPop_ne _ _ _ (by decide), dictGet_dictSet_self]
  · refine Or.inr ⟨fun items hc => hni items (by rw [hmid]; exact hc), ?_⟩
    rw [dictGet_dictPop_ne _ _ _ (by decide), hmid]

theorem importAgent_ok_instructions_not_arr (a : Option String) (m : String) (doc d2 : JObj)
    (h : importAgent a m doc = Except.ok d2) :
    ∀ items, dictGet d2 "instructions" ≠ some (JValue.arr items) := by
  rcases importAgent_ok_instructions a m doc d2 h with
    ⟨items, parts, hins, hstr, heq⟩ | ⟨hni, heq⟩
  · intro its hc
    rw [heq] at hc
    exact JValue.noConfusion (Option.some.inj hc)
  · intro its hc
    rw [heq] at hc
    exact hni its hc

theorem importAgent_rerun (a : Option String) (m : String) (doc d2 : JObj)
    (h : importAgent a m doc = Except.ok d2) :
    importAgent a m d2 = Except.ok d2 := by
  obtain ⟨target, hres, ht, hname⟩ := importAgent_ok_name a m doc d2 h
  have hmodel := importAgent_ok_model a m doc d2 h
  have hmem := importAgent_ok_memory a m doc d2 h
  have hnoarr := importAgent_ok_instructions_not_arr a m doc d2 h
  have hres2 : resolveName a d2 = some target := by
    unfold resolveName at hres ⊢
    cases a with
    | none => exact hname
    | some s =>
      dsimp only at hres ⊢
      by_cases hs : s = ""
      · rw [if_pos hs] at hres ⊢
        exact hname
      · rw [if_neg hs] at hres ⊢
        exact hres
  have e2 : dictSet (dictSet d2 "name" target) "model" (JValue.str m) = d2 := by
    rw [dictSet_same d2 "name" target hname]
    exact dictSet_same d2 "model" (JValue.str m) hmodel
  unfold importAgent
  rw [hres2]
  dsimp only
  rw [ht, if_pos rfl, e2]
  have hpop : dictPop d2 "memory" = d2 := dictPop_absent d2 "memory" hmem
  cases hins : dictGet d2 "instructions" with
  | none => simp [hpop]
  | some v =>
    cases v with
    | arr items => exact absurd hins (hnoarr items)
    | null => simp [hpop]
    | bool b => simp [hpop]
    | num n => simp [hpop]
    | str s => simp [hpop]
    | obj l => simp [hpop]

theorem resolveName_truthy (a : Option String) (doc : JObj) :
    jtruthyOpt (resolveName a doc) = (overrideTruthy a || jtruthyOpt (dictGet doc "name")) := by
  cases a with
  | none => simp [resolveName, overrideTruthy]
  | some s =>
    by_cases hs : s = ""
    · simp [resolveName, overrideTruthy, hs]
    · simp [resolveName, overrideTruthy, hs, jtruthyOpt, jtruthy]

theorem isValueError_importAgent (a : Option String) (m : String) (doc : JObj) :
    isValueError (importAgent a m doc) = !jtruthyOpt (resolveName a doc) := by
  unfold importAgent
  cases hres : resolveName a doc with
  | none => simp [isValueError, jtruthyOpt]
  | some target =>
    dsimp only
    cases ht : jtruthy target with
    | false => simp [isValueError, jtruthyOpt, ht]
    | true =>
      rw [if_pos rfl]
      simp only [jtruthyOpt, ht, Bool.not_true]
      cases hins : dictGet (dictSet (dictSet doc "name" target) "model" (JValue.str m))
          "instructions" with
      | none => simp [isValueError]
      | some v =>
        cases v with
        | arr items =>
          dsimp only
          cases hstr : asStrList items with
          | none => simp [isValueError]
          | some parts => simp [isValueError]
        | null => simp [isValueError]
        | bool b => simp [isValueError]
        | num n => simp [isValueError]
        | str s => simp [isValueError]
        | obj l => simp [isValueError]

/-! The claims. -/

/-- C1: With no name override, normalization keeps the document's non-empty
`name` and sets `model` to the supplied model argument, overwriting any
existing value; on the end-to-end example document the submitted body is
exactly the expected one, with no `memory` key. -/
theorem c1_no_override_keeps_name_sets_model :
    (∀ (doc : JObj) (m s : String) (d2 : JObj),
      dictGet doc "name" = some (JValue.str s) → s ≠ "" →
      importAgent none m doc = Except.ok d2 →
      dictGet d2 "name" = some (JValue.str s) ∧
      dictGet d2 "model" = some (JValue.str m)) ∧
    importAgent none "gpt-4o-mini" diagDoc = Except.ok diagBody ∧
    runMain (fun p => if p = "agents/diagnostic_agent.json" then some diagDoc else none)
      "agents/diagnostic_agent.json" none "gpt-4o-mini"
      = (Except.ok diagBody,
         [Event.readFile "agents/diagnostic_agent.json", Event.remoteCall diagBody]) := by
  refine ⟨?_, rfl, rfl⟩
  intro doc m s d2 hname _hs h
  obtain ⟨target, hres, ht, hname2⟩ := importAgent_ok_name none m doc d2 h
  have hrn : resolveName none doc = dictGet doc "name" := rfl
  rw [hrn, hname] at hres
  rw [← Option.some.inj hres] at hname2
  exact ⟨hname2, importAgent_ok_model none m doc d2 h⟩

/-- Witness for C1 at the example document. -/
theorem c1_no_override_keeps_name_sets_model_witness :
    dictGet diagBody "name" = some (JValue.str "diag") ∧
    dictGet diagBody "model" = some (JValue.str "gpt-4o-mini") :=
  c1_no_override_keeps_name_sets_model.1 diagDoc "gpt-4o-mini" "diag" diagBody rfl
    (by decide) rfl

/-- C2: A non-empty command-line name override wins: the effective name
resolves to the override, and the normalized document's `name` equals the
override regardless of any `name` field in the source JSON. -/
theorem c2_override_wins :
    ∀ (doc : JObj) (m s : String), s ≠ "" →
      resolveName (some s) doc = some (JValue.str s) ∧
      ∀ d2, importAgent (some s) m doc = Except.ok d2 →
        dictGet d2 "name" = some (JValue.str s) := by
  intro doc m s hs
  have hres : resolveName (some s) doc = some (JValue.str s) := by
    simp [resolveName, hs]
  refine ⟨hres, ?_⟩
  intro d2 h
  obtain ⟨target, hres2, ht, hname2⟩ := importAgent_ok_name (some s) m doc d2 h
  rw [hres] at hres2
  rw [← Option.some.inj hres2] at hname2
  exact hname2

/-- Witness for C2: the override beats the example document's own name. -/
theorem c2_override_wins_witness :
    resolveName (some "override") diagDoc = some (JValue.str "override") ∧
    dictGet overrideBody "name" = some (JValue.str "override") :=
  have h := c2_override_wins diagDoc "gpt-4o-mini" "override" (by decide)
  ⟨h.1, h.2 overrideBody rfl⟩

/-- C3: `instructions` normalization: a list of strings is replaced by the
newline-join of its elements in order; a string is left unchanged; any other
value, or absence, passes through unmodified. -/
theorem c3_instructions_normalization :
    ∀ (doc d2 : JObj) (a : Option String) (m : String),
      importAgent a m doc = Except.ok d2 →
      (∀ items parts, dictGet doc "instructions" = some (JValue.arr items) →
        asStrList items = some parts →
        dictGet d2 "instructions" = some (JValue.str (String.intercalate "\n" parts))) ∧
      (∀ s, dictGet doc "instructions" = some (JValue.str s) →
        dictGet d2 "instructions" = some (JValue.str s)) ∧
      (∀ v, dictGet doc "instructions" = some v → (∀ items, v ≠ JValue.arr items) →
        dictGet d2 "instructions" = some v) ∧
      (dictGet doc "instructions" = none → dictGet d2 "instructions" = none) := by
  intro doc d2 a m h
  rcases importAgent_ok_instructions a m doc d2 h with ⟨its, ps, hins, hstr, heq⟩ | ⟨hni, heq⟩
  · refine ⟨?_, ?_, ?_, ?_⟩
    · intro items parts hins2 hstr2
      rw [hins] at hins2
      obtain rfl : its = items := JValue.arr.inj (Option.some.inj hins2)
      rw [hstr] at hstr2
      obtain rfl : ps = parts := Option.some.inj hstr2
      exact heq
    · intro s hs2
      rw [hins] at hs2
      exact absurd (Option.some.inj hs2) (by simp)
    · intro v hv2 hvna
      rw [hins] at hv2
      exact absurd (Option.some.inj hv2).symm (hvna its)
    · intro hnone
      rw [hins] at hnone
      exact Option.noConfusion hnone
  · refine ⟨?_, ?_, ?_, ?_⟩
    · intro items parts hins2 _
      exact absurd hins2 (hni items)
    · intro s hs2
      rw [heq, hs2]
    · intro v hv2 _
      rw [heq, hv2]
    · intro hnone
      rw [heq, hnone]

/-- Witness for C3: the example list joins to `"step1\nstep2"`, and an
`instructions` value already equal to `"a\nb"` is left unchanged. -/
theorem c3_instructions_normalization_witness :
    dictGet diagBody "instructions" = some (JValue.str "step1\nstep2") ∧
    dictGet abBody "instructions" = some (JValue.str "a\nb") :=
  ⟨(c3_instructions_normalization diagDoc diagBody none "gpt-4o-mini" rfl).1
      [JValue.str "step1", JValue.str "step2"] ["step1", "step2"] rfl rfl,
   ((c3_instructions_normalization abDoc abBody none "m1" rfl).2).1 "a\nb" rfl⟩

/-- C4: A document with no `name` field and no `--agent-name` override makes
the tool raise the explicit validation `ValueError`, and the remote
create-agent call is never invoked in that run. -/
theorem c4_missing_name_validation :
    ∀ (fs : String → Option JObj) (path m : String) (doc : JObj),
      fs path = some doc → dictGet doc "name" = none →
      runMain fs path none m
        = (Except.error (RunError.importError (ImportError.valueError nameMissingMsg)),
           [Event.readFile path]) ∧
      ∀ body, Event.remoteCall body ∉ (runMain fs path none m).2 := by
  intro fs path m doc hfs hname
  have hres : resolveName none doc = none := hname
  have himp : importAgent none m doc
      = Except.error (ImportError.valueError nameMissingMsg) := by
    unfold importAgent
    rw [hres]
  have hrun : runMain fs path none m
      = (Except.error (RunError.importError (ImportError.valueError nameMissingMsg)),
         [Event.readFile path]) := by
    unfold runMain
    rw [hfs]
    dsimp only
    rw [himp]
  refine ⟨hrun, ?_⟩
  intro body hmem
  rw [hrun] at hmem
  simp at hmem

/-- Witness for C4 on a document lacking a `name` field. -/
theorem c4_missing_name_validation_witness :
    runMain (fun _ => some noNameDoc) "agent.json" none "m1"
      = (Except.error (RunError.importError (ImportError.valueError nameMissingMsg)),
         [Event.readFile "agent.json"]) ∧
    ∀ body, Event.remoteCall body ∉ (runMain (fun _ => some noNameDoc) "agent.json" none "m1").2 :=
  c4_missing_name_validation (fun _ => some noNameDoc) "agent.json" "m1" noNameDoc rfl rfl

/-- C5: A definition path that references no existing file fails with the
file-not-found error, and neither the definition file read nor the remote
create-agent call is attempted in that run. -/
theorem c5_file_not_found :
    ∀ (fs : String → Option JObj) (path : String) (a : Option String) (m : String),
      fs path = none →
      runMain fs path a m = (Except.error (RunError.fileNotFound path), []) ∧
      (runMain fs path a m).2 = [] := by
  intro fs path a m hfs
  have hrun : runMain fs path a m = (Except.error (RunError.fileNotFound path), []) := by
    unfold runMain
    rw [hfs]
  exact ⟨hrun, by rw [hrun]⟩

/-- Witness for C5 on an empty filesystem. -/
theorem c5_file_not_found_witness :
    runMain (fun _ => none) "missing.json" none "m1"
      = (Except.error (RunError.fileNotFound "missing.json"), []) ∧
    (runMain (fun _ => none) "missing.json" none "m1").2 = [] :=
  c5_file_not_found (fun _ => none) "missing.json" none "m1" rfl

/-- C6: Normalization removes the `memory` key whatever its value, and on a
document without that key popping it is a no-op (absence is not an error). -/
theorem c6_memory_removed :
    (∀ (doc d2 : JObj) (a : Option String) (m : String),
      importAgent a m doc = Except.ok d2 → dictGet d2 "memory" = none) ∧
    (∀ doc : JObj, dictGet doc "memory" = none → dictPop doc "memory" = doc) :=
  ⟨fun doc d2 a m h => importAgent_ok_memory a m doc d2 h,
   fun doc h => dictPop_absent doc "memory" h⟩

/-- Witness for C6: the example body has no `memory` key, and popping the
absent key from `abDoc` changes nothing. -/
theorem c6_memory_removed_witness :
    dictGet diagBody "memory" = none ∧ dictPop abDoc "memory" = abDoc :=
  ⟨c6_memory_removed.1 diagDoc diagBody none "gpt-4o-mini" rfl,
   c6_memory_removed.2 abDoc rfl⟩

/-- C7: Frame: every key other than `name`, `model`, `instructions` and
`memory` keeps exactly its source value in the submitted document, and the
`instructions` key is present in the result exactly when it was present in
the source (so only `name`/`model` can be added and only `memory` removed). -/
theorem c7_frame :
    ∀ (doc d2 : JObj) (a : Option String) (m : String),
      importAgent a m doc = Except.ok d2 →
      (∀ k, k ≠ "name" → k ≠ "model" → k ≠ "instructions" → k ≠ "memory" →
        dictGet d2 k = dictGet doc k) ∧
      (dictGet d2 "instructions").isSome = (dictGet doc "instructions").isSome := by
  intro doc d2 a m h
  refine ⟨fun k h1 h2 h3 h4 => importAgent_ok_get_other a m doc d2 k h h1 h2 h3 h4, ?_⟩
  rcases importAgent_ok_instructions a m doc d2 h with ⟨its, ps, hins, hstr, heq⟩ | ⟨hni, heq⟩
  · simp [heq, hins]
  · rw [heq]

/-- Witness for C7: the passthrough key `temperature` is forwarded verbatim. -/
theorem c7_frame_witness :
    dictGet extraBody "temperature" = dictGet extraDoc "temperature" ∧
    (dictGet extraBody "instructions").isSome = (dictGet extraDoc "instructions").isSome :=
  have h := c7_frame extraDoc extraBody none "m1" rfl
  ⟨h.1 "temperature" (by decide) (by decide) (by decide) (by decide), h.2⟩

/-- C8: Normalization is idempotent: whenever it succeeds, applying it again
with the same override and model returns the same document unchanged. -/
theorem c8_idempotent :
    ∀ (doc d2 : JObj) (a : Option String) (m : String),
      importAgent a m doc = Except.ok d2 → importAgent a m d2 = Except.ok d2 :=
  fun _doc d2 a m h => importAgent_rerun a m _doc d2 h

/-- Witness for C8 on the example document. -/
theorem c8_idempotent_witness :
    importAgent none "gpt-4o-mini" diagBody = Except.ok diagBody :=
  c8_idempotent diagDoc diagBody none "gpt-4o-mini" rfl

/-- C9: Name resolution uses truthiness, not presence: an empty-string
override behaves exactly as an absent one, an empty-string document `name`
with no override raises the validation error, and the validation error occurs
exactly when both the override and the document's `name` value are falsy. -/
theorem c9_truthiness :
    (∀ (doc : JObj) (m : String), importAgent (some "") m doc = importAgent none m doc) ∧
    (∀ (doc : JObj) (m : String), dictGet doc "name" = some (JValue.str "") →
      importAgent none m doc = Except.error (ImportError.valueError nameMissingMsg)) ∧
    (∀ (doc : JObj) (a : Option String) (m : String),
      isValueError (importAgent a m doc)
        = (!overrideTruthy a && !jtruthyOpt (dictGet doc "name"))) := by
  refine ⟨?_, ?_, ?_⟩
  · intro doc m
    have hres : resolveName (some "") doc = resolveName none doc := by
      simp [resolveName]
    unfold importAgent
    rw [hres]
  · intro doc m hname
    have hres : resolveName none doc = some (JValue.str "") := hname
    unfold importAgent
    rw [hres]
    dsimp only
    simp [jtruthy]
  · intro doc a m
    rw [isValueError_importAgent, resolveName_truthy, Bool.not_or]

/-- Witness for C9 at the empty-name document. -/
theorem c9_truthiness_witness :
    importAgent (some "") "m1" emptyNameDoc = importAgent none "m1" emptyNameDoc ∧
    importAgent none "m1" emptyNameDoc
      = Except.error (ImportError.valueError nameMissingMsg) ∧
    isValueError (importAgent none "m1" emptyNameDoc)
      = (!overrideTruthy none && !jtruthyOpt (dictGet emptyNameDoc "name")) :=
  ⟨c9_truthiness.1 emptyNameDoc "m1",
   c9_truthiness.2.1 emptyNameDoc "m1" rfl,
   c9_truthiness.2.2 emptyNameDoc none "m1"⟩

/-- C10: Printing the success report is total over response mappings: the
summary is always exactly four lines, and each of `name`, `id` and `status`
is read with a defaulting lookup, a missing field printing as `None`. -/
theorem c10_summary_total :
    ∀ result : JObj,
      (formatSummary result).length = 4 ∧
      (dictGet result "name" = none →
        (formatSummary result).get? 1 = some "  Name:        None") ∧
      (dictGet result "id" = none →
        (formatSummary result).get? 2 = some "  Version ID:  None") ∧
      (dictGet result "status" = none →
        (formatSummary result).get? 3 = some "  Status:      None") := by
  intro result
  refine ⟨rfl, ?_, ?_, ?_⟩ <;> intro h <;> (simp only [formatSummary]; rw [h]; rfl)

/-- Witness for C10 at the empty response mapping. -/
theorem c10_summary_total_witness :
    (formatSummary []).length = 4 ∧
    (formatSummary []).get? 1 = some "  Name:        None" ∧
    (formatSummary []).get? 2 = some "  Version ID:  None" ∧
    (formatSummary []).get? 3 = some "  Status:      None" :=
  have h := c10_summary_total []
  ⟨h.1, h.2.1 rfl, h.2.2.1 rfl, h.2.2.2 rfl⟩
